import Mathlib

/-!
Shallow embedding of the trajan trajectory engine (src/trajan/traj.py).

Conventions of the embedding:
* A float value is modelled by `FloatVal`: an exact rational (`val`), the two
  IEEE infinities (`inf`, `neginf`) or `nan`.  NumPy elementwise arithmetic on
  these values is modelled by `fadd`, `fsub` and `npdiv`.
* 2D `[trajectory, observation]` arrays are `Arr2 := List (List FloatVal)`.
* An xarray `Dataset` is a list of named variables (each a data array plus a
  list of string attributes) together with the registered size of the
  observation dimension (`obsSize`, mirroring `ds.sizes[obsdim]`).
* Python attribute access that can fail (`self.ds.lon`) is modelled through
  `Except PyErr`; the exception constructors mirror the Python exception
  classes raised by the code paths under study.
* External geodesic / projection libraries (pyproj `Geod.inv`,
  `Transformer.transform`, `Proj`) are kept abstract: the functions of this file
  take them as explicit parameters, since trajan only pipes arrays through
  them.  `scipy.spatial.ConvexHull` is modelled concretely from its documented
  behaviour because the claims under study depend on when it raises.
-/

namespace Trajan

/-- A NumPy floating point value: exact rational, plus-infinity, minus-infinity
or NaN.  Exact rational arithmetic stands in for binary floating point; none of
the verified claims depends on rounding. -/
inductive FloatVal where
  | val (q : ℚ)
  | inf
  | neginf
  | nan
deriving DecidableEq, Repr

/-- `np.isfinite` on a single value. -/
def FloatVal.isFinite : FloatVal → Bool
  | .val _ => true
  | _ => false

/-- NumPy elementwise addition on float values (used for `lat + lon`). -/
def fadd : FloatVal → FloatVal → FloatVal
  | .nan, _ => .nan
  | _, .nan => .nan
  | .val a, .val b => .val (a + b)
  | .val _, .inf => .inf
  | .val _, .neginf => .neginf
  | .inf, .val _ => .inf
  | .neginf, .val _ => .neginf
  | .inf, .inf => .inf
  | .neginf, .neginf => .neginf
  | .inf, .neginf => .nan
  | .neginf, .inf => .nan

/-- NumPy elementwise subtraction on float values (used for time deltas). -/
def fsub : FloatVal → FloatVal → FloatVal
  | .nan, _ => .nan
  | _, .nan => .nan
  | .val a, .val b => .val (a - b)
  | .val _, .inf => .neginf
  | .val _, .neginf => .inf
  | .inf, .val _ => .inf
  | .neginf, .val _ => .neginf
  | .inf, .inf => .nan
  | .neginf, .neginf => .nan
  | .inf, .neginf => .inf
  | .neginf, .inf => .neginf

/-- NumPy elementwise division: a positive value divided by zero gives `inf`, a
negative one gives `neginf`, and `0.0/0.0` gives `nan` (NumPy emits a runtime
warning in these cases but no exception). -/
def npdiv : FloatVal → FloatVal → FloatVal
  | .nan, _ => .nan
  | _, .nan => .nan
  | .val a, .val b =>
      if b = 0 then (if 0 < a then .inf else if a < 0 then .neginf else .nan)
      else .val (a / b)
  | .val _, .inf => .val 0
  | .val _, .neginf => .val 0
  | .inf, .val b => if 0 ≤ b then .inf else .neginf
  | .neginf, .val b => if 0 ≤ b then .neginf else .inf
  | .inf, .inf => .nan
  | .inf, .neginf => .nan
  | .neginf, .inf => .nan
  | .neginf, .neginf => .nan

/-- A 2D `[trajectory, observation]` array. -/
abbrev Arr2 := List (List FloatVal)

/-- An xarray variable: its data and its attributes. -/
structure Var where
  data : Arr2
  attrs : List (String × String)
deriving DecidableEq, Repr

/-- An xarray dataset: named variables plus the size of the observation
dimension (`ds.sizes[obsdim]`). -/
structure Dataset where
  vars : List (String × Var)
  obsSize : Nat
deriving DecidableEq, Repr

/-- The Python exceptions observable on the code paths under study.
`undefinedOperationError` is the error class named by the specification's
error taxonomy; the source never raises it (no such class exists in the code),
the constructor exists so that statements about it can be written down. -/
inductive PyErr where
  | attributeError
  | valueError
  | indexError
  | keyError
  | qhullError
  | undefinedOperationError
deriving DecidableEq, Repr

/-- First-match association lookup (models name lookup in `ds.variables`). -/
def lookupVar (name : String) : List (String × Var) → Option Var
  | [] => none
  | (k, v) :: t => if k = name then some v else lookupVar name t

/-- `name in ds` / `ds[name]` as an `Option`. -/
def getVar (ds : Dataset) (name : String) : Option Var :=
  lookupVar name ds.vars

/-- Python attribute access `self.ds.<name>`: `AttributeError` when absent. -/
def attrVar (ds : Dataset) (name : String) : Except PyErr Var :=
  match getVar ds name with
  | some v => .ok v
  | none => .error .attributeError

/-- First-match lookup in an attribute list. -/
def lookupAttr (name : String) : List (String × String) → Option String
  | [] => none
  | (k, v) :: t => if k = name then some v else lookupAttr name t

/-- `detect_tx_dim` (traj.py lines 22-32): the x/longitude variable, probing
the names `lon`, `longitude`, `x`, `X` in order; `ValueError` if none match. -/
def detect_tx_dim (ds : Dataset) : Except PyErr (String × Var) :=
  match getVar ds "lon" with
  | some v => .ok ("lon", v)
  | none =>
    match getVar ds "longitude" with
    | some v => .ok ("longitude", v)
    | none =>
      match getVar ds "x" with
      | some v => .ok ("x", v)
      | none =>
        match getVar ds "X" with
        | some v => .ok ("X", v)
        | none => .error .valueError

/-- `Traj.ty` (traj.py lines 100-118): the y/latitude variable, probing
`lat`, `latitude`, `y`, `Y` in order; `ValueError` if none match. -/
def detect_ty_dim (ds : Dataset) : Except PyErr (String × Var) :=
  match getVar ds "lat" with
  | some v => .ok ("lat", v)
  | none =>
    match getVar ds "latitude" with
    | some v => .ok ("latitude", v)
    | none =>
      match getVar ds "y" with
      | some v => .ok ("y", v)
      | none =>
        match getVar ds "Y" with
        | some v => .ok ("Y", v)
        | none => .error .valueError

/-- A pyproj CRS object as far as trajan observes it: whether it is
geographic, the CF `grid_mapping_name` it writes with `to_cf`, and its CF
attribute dictionary. -/
structure CRS where
  isGeographic : Bool
  gmName : String
  cf : List (String × String)
deriving DecidableEq, Repr

/-- `pyproj.CRS.from_epsg(4326)`, the geographic WGS84 CRS (`self.__gcrs__`). -/
def gcrs : CRS := ⟨true, "latitude_longitude", [("epsg", "4326")]⟩

/-- `pyproj.crs.CRS.from_cf`: a CF `latitude_longitude` grid mapping yields a
geographic CRS, anything else a projected one. -/
def CRS.fromCf (attrs : List (String × String)) : CRS :=
  ⟨lookupAttr "grid_mapping_name" attrs = some "latitude_longitude",
   (lookupAttr "grid_mapping_name" attrs).getD "crs", attrs⟩

/-- The CF grid-mapping variable of the dataset, as resolved by cf_xarray: the
first variable carrying a `grid_mapping` attribute that names an existing
variable, returned as (name of the grid-mapping variable, that variable). -/
def gridMappingVar (ds : Dataset) : Option (String × Var) :=
  ds.vars.findSome? (fun p =>
    match lookupAttr "grid_mapping" p.2.attrs with
    | some k => (getVar ds k).map (fun g => (k, g))
    | none => none)

/-- `Traj.crs` (traj.py lines 198-223): `None` (modelled as `Option.none`
inside the `.ok`) means unprojected Cartesian data. -/
def crs (ds : Dataset) : Except PyErr (Option CRS) :=
  match gridMappingVar ds with
  | none =>
    match detect_tx_dim ds with
    | .error e => .error e
    | .ok (nm, _) =>
      if nm = "lon" ∨ nm = "longitude" then .ok (some gcrs) else .ok none
  | some (_, g) => .ok (some (CRS.fromCf g.attrs))

/-- A pyproj coordinate transformer `Transformer.from_crs(from, to)` applied to
one point, kept abstract (external library). -/
abbrev TransformFn := CRS → CRS → FloatVal → FloatVal → FloatVal × FloatVal

/-- Elementwise map over two 2D arrays (xarray broadcasting of same-shaped
arrays). -/
def map2 (f : FloatVal → FloatVal → FloatVal) (a b : Arr2) : Arr2 :=
  List.zipWith (List.zipWith f) a b

/-- `Traj.tlon` (traj.py lines 120-138).  The source first evaluates
`self.crs.is_geographic` and only afterwards contains an `if self.crs is None`
branch, so a Cartesian dataset (crs `None`) raises `AttributeError` at the
`is_geographic` access and the `None` branch is unreachable. -/
def tlon (T : TransformFn) (ds : Dataset) : Except PyErr Arr2 :=
  match crs ds with
  | .error e => .error e
  | .ok none => .error .attributeError
  | .ok (some c0) =>
    if c0.isGeographic then
      match detect_tx_dim ds with
      | .error e => .error e
      | .ok (_, v) => .ok v.data
    else
      match detect_tx_dim ds, detect_ty_dim ds with
      | .ok (_, vx), .ok (_, vy) =>
          .ok (map2 (fun a b => (T c0 gcrs a b).1) vx.data vy.data)
      | .error e, _ => .error e
      | .ok _, .error e => .error e

/-- `Traj.tlat` (traj.py lines 140-158), same structure as `tlon`. -/
def tlat (T : TransformFn) (ds : Dataset) : Except PyErr Arr2 :=
  match crs ds with
  | .error e => .error e
  | .ok none => .error .attributeError
  | .ok (some c0) =>
    if c0.isGeographic then
      match detect_ty_dim ds with
      | .error e => .error e
      | .ok (_, v) => .ok v.data
    else
      match detect_tx_dim ds, detect_ty_dim ds with
      | .ok (_, vx), .ok (_, vy) =>
          .ok (map2 (fun a b => (T c0 gcrs a b).2) vx.data vy.data)
      | .error e, _ => .error e
      | .ok _, .error e => .error e

/-- A transform that changes nothing; used to instantiate the abstract
transformer on code paths that never reach it. -/
def idTransform : TransformFn := fun _ _ x y => (x, y)

/-- A Cartesian dataset: coordinates named `x`/`y`, no grid mapping, so
`Traj.crs` resolves to `None`. -/
def dsCartesian : Dataset :=
  ⟨[("x", ⟨[[.val 1]], []⟩), ("y", ⟨[[.val 2]], []⟩)], 1⟩

/-- `pyproj.Geod(ellps='WGS84').inv`, kept abstract (external library): given
`lon1 lat1 lon2 lat2` it returns `(azimuth_forward, azimuth_back, distance)`. -/
abbrev GeodFn := FloatVal → FloatVal → FloatVal → FloatVal → FloatVal × FloatVal × FloatVal

/-- The per-row pairing of each observation with the next one, then the
geodesic applied to each pair: models `geod.inv(lon.isel(slice(0, n-1)),
lat.isel(slice(0, n-1)), lon.isel(slice(1, n)), lat.isel(slice(1, n)))` for a
single trajectory row, where `n = ds.sizes[obsdim]`. -/
def rowSteps (g : GeodFn) (n : Nat) (lonR latR : List FloatVal) :
    List (FloatVal × FloatVal × FloatVal) :=
  List.zipWith (fun p q => g p.1 p.2 q.1 q.2)
    ((lonR.take (n - 1)).zip (latR.take (n - 1)))
    ((lonR.drop 1).zip (latR.drop 1))

/-- `xr.concat((a, a.isel({obsdim: -1})), dim=obsdim)` on one row: the last
value is repeated. -/
def repeatLast (l : List FloatVal) : List FloatVal :=
  l ++ [l.getLastD .nan]

/-- `Traj.distance_to_next` (traj.py lines 485-515).  Accesses `self.ds.lon`
and `self.ds.lat` directly (`AttributeError` when absent — there is no
coordinate-system check); the `isel({obsdim: -1})` raises `IndexError` when
the sliced observation axis is empty, i.e. when `obsSize ≤ 1`. -/
def distance_to_next (g : GeodFn) (ds : Dataset) : Except PyErr Arr2 :=
  match getVar ds "lon" with
  | none => .error .attributeError
  | some lonv =>
    match getVar ds "lat" with
    | none => .error .attributeError
    | some latv =>
      if ds.obsSize - 1 = 0 then .error .indexError
      else
        .ok (List.zipWith
          (fun lr tr => repeatLast ((rowSteps g ds.obsSize lr tr).map (fun t => t.2.2)))
          lonv.data latv.data)

/-- `Traj.azimuth_to_next` (traj.py lines 517-550), identical to
`distance_to_next` except that the forward azimuth is kept. -/
def azimuth_to_next (g : GeodFn) (ds : Dataset) : Except PyErr Arr2 :=
  match getVar ds "lon" with
  | none => .error .attributeError
  | some lonv =>
    match getVar ds "lat" with
    | none => .error .attributeError
    | some latv =>
      if ds.obsSize - 1 = 0 then .error .indexError
      else
        .ok (List.zipWith
          (fun lr tr => repeatLast ((rowSteps g ds.obsSize lr tr).map (fun t => t.1)))
          lonv.data latv.data)

/-- Modelled from the spec: `Traj.time_to_next` is abstract in traj.py (its
2D implementation lives in a file that is not under src/); per the spec and
the docstring (traj.py lines 416-427) it returns the elementwise timedelta to
the next observation, with the same shape as the input, so the last value is
repeated like in `distance_to_next`.  Time values are modelled in seconds
(`NaT` is `nan`), which also absorbs the `/ np.timedelta64(1, 's')` conversion
performed by `speed`. -/
def time_to_next (ds : Dataset) : Except PyErr Arr2 :=
  match getVar ds "time" with
  | none => .error .attributeError
  | some tv =>
      if ds.obsSize - 1 = 0 then .error .indexError
      else
        .ok (tv.data.map (fun r =>
          repeatLast (List.zipWith (fun a b => fsub b a)
            (r.take (ds.obsSize - 1)) (r.drop 1))))

/-- `Traj.speed` (traj.py lines 393-413): `distance_to_next()` divided
elementwise by `time_to_next()` in seconds. -/
def speed (g : GeodFn) (ds : Dataset) : Except PyErr Arr2 :=
  match distance_to_next g ds with
  | .error e => .error e
  | .ok d =>
    match time_to_next ds with
    | .error e => .error e
    | .ok td => .ok (map2 npdiv d td)

/-- A geodesic instance consistent with pyproj's documented behaviour on the
inputs used by the concrete examples below: coincident points are at geodesic
distance `0` (the spec itself records `geod.inv` returning distance `0.0` for
two coincident points), and distinct points at some positive distance (here
`1`).  Azimuths are irrelevant to the examples and set to `0`. -/
def geodTest : GeodFn := fun x1 y1 x2 y2 =>
  if x1 = x2 ∧ y1 = y2 then (.val 0, .val 0, .val 0) else (.val 0, .val 0, .val 1)

/-- Claim C2: `tlon`/`tlat` are claimed to return the stored x/y arrays
unchanged, without raising, when the resolved coordinate system is Cartesian
(`crs` is `None`).  The code instead evaluates `self.crs.is_geographic` before
its `self.crs is None` check, so both accessors raise `AttributeError`
(`NoneType` has no attribute `is_geographic`) on every Cartesian dataset; the
`None` branch below that access is unreachable.  This theorem evaluates the
code on such a dataset. -/
theorem C2_theorem :
    crs dsCartesian = .ok none ∧
    tlon idTransform dsCartesian = .error .attributeError ∧
    tlat idTransform dsCartesian = .error .attributeError :=
  ⟨rfl, rfl, rfl⟩

/-- Claim C3, counterexample.  On a Cartesian dataset the code does fail at
the call, but with `AttributeError` (there is no `lon` variable to access),
not with the `UndefinedOperationError` named by the claim — no such error
class exists in the code. -/
theorem C3_counterexample :
    crs dsCartesian = .ok none ∧
    distance_to_next geodTest dsCartesian = .error .attributeError ∧
    azimuth_to_next geodTest dsCartesian = .error .attributeError ∧
    PyErr.attributeError ≠ PyErr.undefinedOperationError :=
  ⟨rfl, rfl, rfl, by decide⟩

/-- Claim C3, amended: for every dataset whose resolved coordinate system is
Cartesian (`crs` is `None`), `distance_to_next` and `azimuth_to_next` fail
eagerly at the call — but with `AttributeError` raised by the `self.ds.lon`
access (Cartesian resolution implies no `lon` variable exists), not with
`UndefinedOperationError`. -/
theorem C3_theorem (g : GeodFn) (ds : Dataset) (h : crs ds = .ok none) :
    distance_to_next g ds = .error .attributeError ∧
    azimuth_to_next g ds = .error .attributeError := by
  have hlon : getVar ds "lon" = none := by
    cases hgm : gridMappingVar ds with
    | some p =>
      rw [crs, hgm] at h
      simp at h
    | none =>
      cases hl : getVar ds "lon" with
      | none => rfl
      | some v =>
        rw [crs, hgm, detect_tx_dim, hl] at h
        simp at h
  exact ⟨by rw [distance_to_next, hlon], by rw [azimuth_to_next, hlon]⟩

/-- Witness for `C3_theorem` at a concrete Cartesian dataset. -/
theorem C3_witness :
    crs dsCartesian = .ok none ∧
    (distance_to_next geodTest dsCartesian = .error .attributeError ∧
     azimuth_to_next geodTest dsCartesian = .error .attributeError) :=
  ⟨rfl, C3_theorem geodTest dsCartesian rfl⟩

/-! List lemmas used to reason about the step pipeline. -/

/-- Decomposition of membership in a `zipWith`. -/
theorem of_mem_zipWith {α β γ : Type} {f : α → β → γ} {c : γ} :
    ∀ {a : List α} {b : List β}, c ∈ List.zipWith f a b →
      ∃ x y, x ∈ a ∧ y ∈ b ∧ c = f x y := by
  intro a
  induction a with
  | nil => intro b h; simp at h
  | cons x t ih =>
    intro b h
    cases b with
    | nil => simp at h
    | cons y s =>
      rw [List.zipWith_cons_cons, List.mem_cons] at h
      rcases h with h | h
      · exact ⟨x, y, List.mem_cons_self x t, List.mem_cons_self y s, h⟩
      · rcases ih h with ⟨x0, y0, hx, hy, he⟩
        exact ⟨x0, y0, List.mem_cons_of_mem _ hx, List.mem_cons_of_mem _ hy, he⟩

/-- The geodesic step sequence of a trajectory row has one entry fewer than
the row. -/
theorem length_rowSteps (g : GeodFn) (n : Nat) (lr tr : List FloatVal)
    (hl : lr.length = n) (ht : tr.length = n) :
    (rowSteps g n lr tr).length = n - 1 := by
  simp [rowSteps, List.length_zipWith, List.length_zip, hl, ht]

/-- After repeating the last entry, a row of length `n - 1` has length `n`
and its two final entries coincide. -/
theorem repeatLast_facts (d : List FloatVal) (n : Nat)
    (hlen : d.length = n - 1) (h2 : 2 ≤ n) :
    (repeatLast d).length = n ∧ (repeatLast d)[n - 1]? = (repeatLast d)[n - 2]? := by
  have hpos : 0 < d.length := by omega
  have hd : d ≠ [] := List.length_pos.mp hpos
  refine ⟨by simp [repeatLast]; omega, ?_⟩
  have h1 : (repeatLast d)[n - 1]? = some (d.getLastD .nan) := by
    have : n - 1 = d.length := by omega
    rw [this]
    exact List.getElem?_concat_length d _
  have h2' : (repeatLast d)[n - 2]? = d[n - 2]? :=
    List.getElem?_append_left (by omega)
  rw [h1, h2', List.getLastD_eq_getLast?, List.getLast?_eq_getElem?]
  have hidx : d.length - 1 = n - 2 := by omega
  rw [hidx]
  have hlt : n - 2 < d.length := by omega
  rw [List.getElem?_eq_getElem hlt]
  rfl

/-- Claim C7: for every trajectory set on which they return (lon/lat present,
rectangular rows of the registered observation size, at least two observation
columns), `distance_to_next` and `azimuth_to_next` return arrays of exactly
the shape of the input position arrays, and in every trajectory row the last
observation column equals the second-to-last column (the code repeats the
last step for every trajectory, hence in particular for those with at least
two valid points). -/
theorem C7_theorem (g : GeodFn) (ds : Dataset) (lonv latv : Var)
    (hlon : getVar ds "lon" = some lonv) (hlat : getVar ds "lat" = some latv)
    (hlen : latv.data.length = lonv.data.length)
    (hrl : ∀ r ∈ lonv.data, r.length = ds.obsSize)
    (hrt : ∀ r ∈ latv.data, r.length = ds.obsSize)
    (h2 : 2 ≤ ds.obsSize) :
    ∃ dA aA, distance_to_next g ds = .ok dA ∧ azimuth_to_next g ds = .ok aA ∧
      dA.length = lonv.data.length ∧ aA.length = lonv.data.length ∧
      (∀ r ∈ dA, r.length = ds.obsSize) ∧ (∀ r ∈ aA, r.length = ds.obsSize) ∧
      (∀ r ∈ dA, r[ds.obsSize - 1]? = r[ds.obsSize - 2]?) ∧
      (∀ r ∈ aA, r[ds.obsSize - 1]? = r[ds.obsSize - 2]?) := by
  have hne : ¬(ds.obsSize - 1 = 0) := by omega
  have main : ∀ (sel : FloatVal × FloatVal × FloatVal → FloatVal) r,
      r ∈ List.zipWith (fun lr tr => repeatLast ((rowSteps g ds.obsSize lr tr).map sel))
        lonv.data latv.data →
      r.length = ds.obsSize ∧ r[ds.obsSize - 1]? = r[ds.obsSize - 2]? := by
    intro sel r hr
    rcases of_mem_zipWith hr with ⟨lr, tr, hlr, htr, he⟩
    subst he
    have hrow : ((rowSteps g ds.obsSize lr tr).map sel).length = ds.obsSize - 1 := by
      rw [List.length_map]
      exact length_rowSteps g ds.obsSize lr tr (hrl lr hlr) (hrt tr htr)
    exact repeatLast_facts _ _ hrow h2
  have hdd : distance_to_next g ds =
      .ok (List.zipWith (fun lr tr => repeatLast ((rowSteps g ds.obsSize lr tr).map
        (fun t => t.2.2))) lonv.data latv.data) := by
    simp [distance_to_next, hlon, hlat, hne]
  have haa : azimuth_to_next g ds =
      .ok (List.zipWith (fun lr tr => repeatLast ((rowSteps g ds.obsSize lr tr).map
        (fun t => t.1))) lonv.data latv.data) := by
    simp [azimuth_to_next, hlon, hlat, hne]
  refine ⟨_, _, hdd, haa, ?_, ?_,
    fun r hr => (main _ r hr).1, fun r hr => (main _ r hr).1,
    fun r hr => (main _ r hr).2, fun r hr => (main _ r hr).2⟩
  · simp [List.length_zipWith, hlen]
  · simp [List.length_zipWith, hlen]

/-- A concrete well-formed two-observation dataset for witnesses. -/
def dsTwoObs : Dataset :=
  ⟨[("lon", ⟨[[.val 0, .val 1]], []⟩), ("lat", ⟨[[.val 0, .val 1]], []⟩)], 2⟩

/-- Witness for `C7_theorem` on a concrete dataset. -/
theorem C7_witness :
    2 ≤ dsTwoObs.obsSize ∧
    (∃ dA aA, distance_to_next geodTest dsTwoObs = .ok dA ∧
      azimuth_to_next geodTest dsTwoObs = .ok aA ∧
      dA.length = ([[FloatVal.val 0, FloatVal.val 1]] : Arr2).length ∧
      aA.length = ([[FloatVal.val 0, FloatVal.val 1]] : Arr2).length ∧
      (∀ r ∈ dA, r.length = dsTwoObs.obsSize) ∧
      (∀ r ∈ aA, r.length = dsTwoObs.obsSize) ∧
      (∀ r ∈ dA, r[dsTwoObs.obsSize - 1]? = r[dsTwoObs.obsSize - 2]?) ∧
      (∀ r ∈ aA, r[dsTwoObs.obsSize - 1]? = r[dsTwoObs.obsSize - 2]?)) :=
  ⟨by decide, C7_theorem geodTest dsTwoObs ⟨[[.val 0, .val 1]], []⟩ ⟨[[.val 0, .val 1]], []⟩
    rfl rfl rfl (by decide) (by decide) (by decide)⟩

/-- The element of a 2D array at `[trajectory i, observation j]`, when both
indices are in range. -/
def elem2 (a : Arr2) (i j : Nat) : Option FloatVal :=
  a[i]?.bind (fun r => r[j]?)

/-- Decidable equality of `Except` results, for evaluating the embedding on
concrete inputs. -/
def exceptDecEq {ε α : Type} [DecidableEq ε] [DecidableEq α] :
    DecidableEq (Except ε α)
  | .ok x, .ok y =>
    if h : x = y then .isTrue (by rw [h]) else .isFalse (fun he => by cases he; exact h rfl)
  | .ok _, .error _ => .isFalse (fun he => by cases he)
  | .error _, .ok _ => .isFalse (fun he => by cases he)
  | .error e, .error f =>
    if h : e = f then .isTrue (by rw [h]) else .isFalse (fun he => by cases he; exact h rfl)

instance {ε α : Type} [DecidableEq ε] [DecidableEq α] : DecidableEq (Except ε α) :=
  exceptDecEq

/-- Claim C4, amended: `speed` is the elementwise quotient of
`distance_to_next` by `time_to_next` in seconds, and an element whose
timedelta is zero yields `+Inf` only when its distance is positive; when the
distance is also zero (coincident points) it yields `NaN`, and a negative
value would yield `-Inf` — NumPy float division semantics, not an error in
any of these cases. -/
theorem C4_theorem (g : GeodFn) (ds : Dataset) (dist td : Arr2) (i j : Nat) (d : ℚ)
    (hd : distance_to_next g ds = .ok dist) (ht : time_to_next ds = .ok td)
    (hde : elem2 dist i j = some (.val d)) (hte : elem2 td i j = some (.val 0)) :
    speed g ds = .ok (map2 npdiv dist td) ∧
    elem2 (map2 npdiv dist td) i j =
      some (if 0 < d then .inf else if d < 0 then .neginf else .nan) := by
  refine ⟨by simp [speed, hd, ht], ?_⟩
  rcases hrow : dist[i]? with _ | r
  · rw [elem2, hrow] at hde; simp at hde
  rcases hrow2 : td[i]? with _ | r2
  · rw [elem2, hrow2] at hte; simp at hte
  rw [elem2, hrow] at hde
  rw [elem2, hrow2] at hte
  simp only [Option.some_bind] at hde hte
  rw [elem2, map2, List.getElem?_zipWith, hrow, hrow2]
  simp only [Option.some_bind]
  rw [List.getElem?_zipWith, hde, hte]
  simp [npdiv]

/-- Two coincident observations (the spec's own example point, lon 10 lat 60)
at the same timestamp. -/
def dsCoincident : Dataset :=
  ⟨[("lon", ⟨[[.val 10, .val 10]], []⟩),
    ("lat", ⟨[[.val 60, .val 60]], []⟩),
    ("time", ⟨[[.val 0, .val 0]], []⟩)], 2⟩

/-- Claim C4, counterexample.  The claim says every element with a zero
timedelta yields `+Inf`; for two coincident observations at the same time the
geodesic distance is `0` (as the spec itself records for `geod.inv` on
coincident points), and NumPy's `0.0 / 0.0` is `NaN`, not `+Inf`. -/
theorem C4_counterexample :
    time_to_next dsCoincident = .ok [[.val 0, .val 0]] ∧
    distance_to_next geodTest dsCoincident = .ok [[.val 0, .val 0]] ∧
    speed geodTest dsCoincident = .ok [[.nan, .nan]] ∧
    FloatVal.nan ≠ FloatVal.inf :=
  ⟨by simp +decide [time_to_next, dsCoincident, getVar, lookupVar, repeatLast, fsub],
   by simp +decide [distance_to_next, dsCoincident, getVar, lookupVar, repeatLast, rowSteps,
     geodTest],
   by simp +decide [speed, distance_to_next, time_to_next, dsCoincident, getVar, lookupVar,
     repeatLast, rowSteps, geodTest, fsub, map2, npdiv],
   by decide⟩

/-- Two distinct observations at the same timestamp: positive distance over a
zero timedelta. -/
def dsZeroDt : Dataset :=
  ⟨[("lon", ⟨[[.val 0, .val 1]], []⟩),
    ("lat", ⟨[[.val 0, .val 0]], []⟩),
    ("time", ⟨[[.val 5, .val 5]], []⟩)], 2⟩

/-- Witness for `C4_theorem`: positive distance over zero timedelta gives
`+Inf`. -/
theorem C4_witness :
    distance_to_next geodTest dsZeroDt = .ok [[.val 1, .val 1]] ∧
    time_to_next dsZeroDt = .ok [[.val 0, .val 0]] ∧
    (speed geodTest dsZeroDt = .ok (map2 npdiv [[.val 1, .val 1]] [[.val 0, .val 0]]) ∧
     elem2 (map2 npdiv [[.val 1, .val 1]] [[.val 0, .val 0]]) 0 0 =
       some (if (0 : ℚ) < 1 then .inf else if (1 : ℚ) < 0 then .neginf else .nan)) :=
  have h1 : distance_to_next geodTest dsZeroDt = .ok [[.val 1, .val 1]] := by
    simp +decide [distance_to_next, dsZeroDt, getVar, lookupVar, repeatLast, rowSteps, geodTest]
  have h2 : time_to_next dsZeroDt = .ok [[.val 0, .val 0]] := by
    simp +decide [time_to_next, dsZeroDt, getVar, lookupVar, repeatLast, fsub]
  ⟨h1, h2, C4_theorem geodTest dsZeroDt _ _ 0 0 1 h1 h2 rfl rfl⟩

/-! Hull engine (convex_hull, get_area_convex_hull). -/

/-- `a.where(status == 0)`: keep a value where the status value equals `0`,
else `NaN` (a NaN or non-zero status excludes the position). -/
def maskWhere (a status : Arr2) : Arr2 :=
  List.zipWith (List.zipWith (fun x s => if s = FloatVal.val 0 then x else FloatVal.nan))
    a status

/-- `np.isfinite(lat + lon)` elementwise. -/
def finMask (lon lat : Arr2) : List (List Bool) :=
  List.zipWith (List.zipWith (fun la lo => (fadd la lo).isFinite)) lat lon

/-- `np.sum` of a boolean mask: the number of `true` entries. -/
def countTrue (m : List (List Bool)) : Nat :=
  (m.map (fun r => r.countP (fun b => b))).sum

/-- Row-major boolean selection `a[fin]` for one row. -/
def filterRow (r : List FloatVal) (mr : List Bool) : List FloatVal :=
  (r.zip mr).filterMap (fun p => if p.2 then some p.1 else none)

/-- Row-major boolean selection `a[fin]` of a 2D array (NumPy flattens). -/
def filterByMask (a : Arr2) (m : List (List Bool)) : List FloatVal :=
  (List.zipWith filterRow a m).join

/-- The equality used by `np.unique` to deduplicate: equal rationals, equal
infinities, and (since NumPy collapses NaNs in `unique`) any two NaNs. -/
def uniqEqB : FloatVal → FloatVal → Bool
  | .val a, .val b => a == b
  | .inf, .inf => true
  | .neginf, .neginf => true
  | .nan, .nan => true
  | _, _ => false

/-- `len(np.unique(l)) == 1`: the list is nonempty and all entries collapse to
one representative. -/
def npUniqueSingle (l : List FloatVal) : Bool :=
  match l with
  | [] => false
  | x :: xs => xs.all (uniqEqB x)

/-- The rational carried by a finite float value (`0` otherwise; only applied
to values already known finite). -/
def toQ : FloatVal → ℚ
  | .val q => q
  | _ => 0

/-- Twice the signed area of the triangle `p q r`. -/
def cross (p q r : ℚ × ℚ) : ℚ :=
  (q.1 - p.1) * (r.2 - p.2) - (q.2 - p.2) * (r.1 - p.1)

/-- Every triple of points is collinear (degenerate input for qhull). -/
def allCollinear (pts : List (ℚ × ℚ)) : Bool :=
  pts.all (fun p => pts.all (fun q => pts.all (fun r => cross p q r == 0)))

/-- The object returned by a successful `scipy.spatial.ConvexHull` call; the
claims only inspect whether the call succeeds, so the input points are all the
state the embedding needs. -/
structure Hull where
  points : List (ℚ × ℚ)
deriving DecidableEq, Repr

/-- `scipy.spatial.ConvexHull`, modelled from its documented behaviour: the
call raises `QhullError` on degenerate input — fewer than 3 points, or all
points collinear (which includes all-identical) — and otherwise returns the
hull. -/
def qhull (pts : List (ℚ × ℚ)) : Except PyErr Hull :=
  if pts.length < 3 ∨ allCollinear pts then .error .qhullError else .ok ⟨pts⟩

/-- The status filter of `convex_hull` (traj.py lines 583-585): applied only
when a `status` variable is present. -/
def applyStatus (ds : Dataset) (a : Arr2) : Arr2 :=
  match getVar ds "status" with
  | some st => maskWhere a st.data
  | none => a

/-- `np.vstack((lon.T, lat.T)).T` on the filtered 1D coordinate arrays:
the list of (lon, lat) points. -/
def hullPoints (lons lats : List FloatVal) : List (ℚ × ℚ) :=
  (lons.zip lats).map (fun p => (toQ p.1, toQ p.2))

/-- The point set handed to qhull by `convex_hull`. -/
def hullPts (lon lat : Arr2) : List (ℚ × ℚ) :=
  hullPoints (filterByMask lon (finMask lon lat)) (filterByMask lat (finMask lon lat))

/-- `Traj.convex_hull` (traj.py lines 570-594).  Positions are filtered by
`status == 0` only when a `status` variable is present, then by finiteness of
`lat + lon`; `None` is returned when at most 3 finite positions remain, or
when the masked `lat` array and the masked `lon` array each hold exactly one
`np.unique` value.  Whatever survives these checks is passed to
`scipy.spatial.ConvexHull`. -/
def convex_hull (ds : Dataset) : Except PyErr (Option Hull) :=
  match getVar ds "lon" with
  | none => .error .attributeError
  | some lonv =>
    match getVar ds "lat" with
    | none => .error .attributeError
    | some latv =>
      let lon := applyStatus ds lonv.data
      let lat := applyStatus ds latv.data
      if countTrue (finMask lon lat) ≤ 3 then .ok none
      else if npUniqueSingle lat.join && npUniqueSingle lon.join then .ok none
      else
        match qhull (hullPts lon lat) with
        | .error e => .error e
        | .ok h => .ok (some h)

/-- Four distinct collinear finite positions (no `status` variable). -/
def dsCollinear : Dataset :=
  ⟨[("lon", ⟨[[.val 0, .val 1, .val 2, .val 3]], []⟩),
    ("lat", ⟨[[.val 0, .val 2, .val 4, .val 6]], []⟩)], 4⟩

/-- Claim C5, counterexample.  The claim says `convex_hull` returns null —
never raising — whenever the remaining points are collinear; on four distinct
collinear points the identical-points check (`len(np.unique(lat)) == 1 and
len(np.unique(lon)) == 1`) does not fire, the points reach
`scipy.spatial.ConvexHull`, and the call raises `QhullError`. -/
theorem C5_counterexample :
    convex_hull dsCollinear = .error .qhullError ∧
    ∀ h : Option Hull, Except.error PyErr.qhullError ≠ Except.ok h := by
  have hpts : hullPts
      [[FloatVal.val 0, FloatVal.val 1, FloatVal.val 2, FloatVal.val 3]]
      [[FloatVal.val 0, FloatVal.val 2, FloatVal.val 4, FloatVal.val 6]] =
      [((0 : ℚ), (0 : ℚ)), (1, 2), (2, 4), (3, 6)] := rfl
  have hcol : allCollinear [(0 : ℚ × ℚ), (1, 2), (2, 4), (3, 6)] = true := by
    norm_num [allCollinear, cross]
  refine ⟨?_, fun h he => by cases he⟩
  simp +decide [convex_hull, dsCollinear, getVar, lookupVar, applyStatus, qhull, hpts, hcol]

/-- Claim C5, amended: `convex_hull` filters positions to `status == 0` (only
when a `status` variable is present) and finite coordinates, and returns
`None` when at most 3 such positions remain, or when the masked latitude and
longitude arrays each hold a single `np.unique` value (all points identical
and no other value, NaN included, present).  When more than 3 positions
survive but the remaining points are all collinear without passing that
identical-value check, the points are handed to `scipy.spatial.ConvexHull`,
which raises `QhullError` — the call is not null-returning on every degenerate
input. -/
theorem C5_theorem (ds : Dataset) (lonv latv : Var) (lon lat : Arr2)
    (hlon : getVar ds "lon" = some lonv) (hlat : getVar ds "lat" = some latv)
    (hL : lon = applyStatus ds lonv.data) (hT : lat = applyStatus ds latv.data) :
    (countTrue (finMask lon lat) ≤ 3 → convex_hull ds = .ok none) ∧
    (¬ countTrue (finMask lon lat) ≤ 3 →
      (npUniqueSingle lat.join && npUniqueSingle lon.join) = true →
      convex_hull ds = .ok none) ∧
    (¬ countTrue (finMask lon lat) ≤ 3 →
      (npUniqueSingle lat.join && npUniqueSingle lon.join) = false →
      allCollinear (hullPts lon lat) = true →
      convex_hull ds = .error .qhullError) := by
  subst hL hT
  refine ⟨fun h1 => ?_, fun h1 h2 => ?_, fun h1 h2 h3 => ?_⟩
  · simp [convex_hull, hlon, hlat, h1]
  · simp [convex_hull, hlon, hlat, h1, h2]
  · simp [convex_hull, hlon, hlat, h1, h2, qhull, h3]

/-- Witness for `C5_theorem`: two finite positions (at most 3 valid points)
give `None`. -/
theorem C5_witness :
    countTrue (finMask (applyStatus dsTwoObs [[.val 0, .val 1]])
      (applyStatus dsTwoObs [[.val 0, .val 1]])) ≤ 3 ∧
    convex_hull dsTwoObs = .ok none := by
  have hc : countTrue (finMask (applyStatus dsTwoObs [[.val 0, .val 1]])
      (applyStatus dsTwoObs [[.val 0, .val 1]])) ≤ 3 := by
    simp +decide [applyStatus, getVar, lookupVar, dsTwoObs, finMask, fadd,
      FloatVal.isFinite, countTrue]
  exact ⟨hc, (C5_theorem dsTwoObs ⟨[[.val 0, .val 1]], []⟩ ⟨[[.val 0, .val 1]], []⟩
    _ _ rfl rfl rfl rfl).1 hc⟩

/-- The equal-area projection `pyproj.Proj('+proj=aea ...')` built by
`get_area_convex_hull`, kept abstract (external library): it maps the four
projection parameters `(lat_0, lat_1, lat_2, lon_0)` and a point (as passed:
first argument slot, second argument slot) to projected `(x, y)`. -/
abbrev AeaFn := ℚ × ℚ × ℚ × ℚ → FloatVal → FloatVal → FloatVal × FloatVal

/-- `scipy` hull area (`hull.volume` of a 2D hull), kept abstract: only
reached on non-degenerate input. -/
abbrev VolFn := List (ℚ × ℚ) → ℚ

/-- Mean of a rational list (models `DataArray.mean` on the filtered finite
values). -/
def qmean (l : List ℚ) : ℚ := l.sum / l.length

/-- Minimum of a rational list. -/
def qminL (l : List ℚ) : ℚ := l.foldr min (l.headD 0)

/-- Maximum of a rational list. -/
def qmaxL (l : List ℚ) : ℚ := l.foldr max (l.headD 0)

/-- `Traj.get_area_convex_hull` (traj.py lines 618-647).  Unlike
`convex_hull`, the `status` filter is unconditional: `self.ds.status` raises
`AttributeError` when no `status` variable exists (evaluation order on line
629 is `self.ds.lon`, then `self.ds.status`; line 630 adds `self.ds.lat`).
The degenerate checks mirror `convex_hull` and return the integer `0`.  The
projection string is Albers equal-area conic (`+proj=aea`) with `lat_0` the
mean, `lat_1`/`lat_2` the min/max of the masked latitudes and `lon_0` the
mean longitude, and the call `aea(lat, lon)` passes latitude in the first
(longitude) slot — the `fin` recomputed after projection is never used.  The
hull is built over the pairs `(y, x)` and its area returned. -/
def get_area_convex_hull (aea : AeaFn) (vol : VolFn) (ds : Dataset) :
    Except PyErr FloatVal :=
  match getVar ds "lon" with
  | none => .error .attributeError
  | some lonv =>
    match getVar ds "status" with
    | none => .error .attributeError
    | some stv =>
      match getVar ds "lat" with
      | none => .error .attributeError
      | some latv =>
        let lon := maskWhere lonv.data stv.data
        let lat := maskWhere latv.data stv.data
        if countTrue (finMask lon lat) ≤ 3 then .ok (.val 0)
        else if npUniqueSingle lat.join && npUniqueSingle lon.join then .ok (.val 0)
        else
          let lats := (filterByMask lat (finMask lon lat)).map toQ
          let lons := (filterByMask lon (finMask lon lat)).map toQ
          let params := (qmean lats, qminL lats, qmaxL lats, qmean lons)
          let xy := List.zipWith (fun la lo => aea params (.val la) (.val lo)) lats lons
          let pts := ((xy.map (fun p => p.2)).zip (xy.map (fun p => p.1))).map
            (fun p => (toQ p.1, toQ p.2))
          if pts.length < 3 ∨ allCollinear pts then .error .qhullError
          else .ok (.val (vol pts))

/-- A projection instance that changes nothing; the theorems below only
exercise code paths that never reach it. -/
def aeaTriv : AeaFn := fun _ x y => (x, y)

/-- A trivial hull-area instance for the same purpose. -/
def volTriv : VolFn := fun _ => 0

/-- Claim C6, counterexample.  The claim says `get_area_convex_hull` returns
exactly `0` for every dataset whose valid positions number fewer than 4; on a
dataset with two positions and no `status` variable the unconditional
`self.ds.status` access raises `AttributeError` instead. -/
theorem C6_counterexample :
    getVar dsTwoObs "status" = none ∧
    get_area_convex_hull aeaTriv volTriv dsTwoObs = .error .attributeError ∧
    ∀ q : ℚ, Except.error PyErr.attributeError ≠
      (Except.ok (FloatVal.val q) : Except PyErr FloatVal) := by
  refine ⟨rfl, rfl, fun q he => ?_⟩
  cases he

/-- Claim C6, amended: on a dataset that does carry `lon`, `lat` and `status`
variables, `get_area_convex_hull` returns exactly `0` in the degenerate cases
— at most 3 finite `status == 0` positions, or masked latitude and longitude
arrays each holding a single `np.unique` value; otherwise the area is computed
from a hull in an Albers equal-area conic projection (not an azimuthal one)
whose parameters are the mean/min/max of the masked coordinates, applied with
latitude and longitude swapped.  Datasets without a `status` variable raise
`AttributeError`. -/
theorem C6_theorem (aea : AeaFn) (vol : VolFn) (ds : Dataset) (lonv stv latv : Var)
    (lon lat : Arr2)
    (hlon : getVar ds "lon" = some lonv) (hst : getVar ds "status" = some stv)
    (hlat : getVar ds "lat" = some latv)
    (hL : lon = maskWhere lonv.data stv.data) (hT : lat = maskWhere latv.data stv.data)
    (hdeg : countTrue (finMask lon lat) ≤ 3 ∨
      (npUniqueSingle lat.join && npUniqueSingle lon.join) = true) :
    get_area_convex_hull aea vol ds = .ok (.val 0) := by
  subst hL hT
  rcases hdeg with h | h
  · simp [get_area_convex_hull, hlon, hst, hlat, h]
  · by_cases h1 : countTrue (finMask (maskWhere lonv.data stv.data)
        (maskWhere latv.data stv.data)) ≤ 3
    · simp [get_area_convex_hull, hlon, hst, hlat, h1]
    · simp [get_area_convex_hull, hlon, hst, hlat, h1, h]

/-- A dataset with one active position and a `status` variable. -/
def dsWithStatus : Dataset :=
  ⟨[("lon", ⟨[[.val 3]], []⟩), ("lat", ⟨[[.val 4]], []⟩),
    ("status", ⟨[[.val 0]], []⟩)], 1⟩

/-- Witness for `C6_theorem`: a single valid position gives area exactly 0. -/
theorem C6_witness :
    countTrue (finMask (maskWhere [[.val 3]] [[.val 0]])
      (maskWhere [[.val 4]] [[.val 0]])) ≤ 3 ∧
    get_area_convex_hull aeaTriv volTriv dsWithStatus = .ok (.val 0) := by
  have hc : countTrue (finMask (maskWhere [[.val 3]] [[.val 0]])
      (maskWhere [[.val 4]] [[.val 0]])) ≤ 3 := by
    simp +decide [maskWhere, finMask, fadd, FloatVal.isFinite, countTrue]
  exact ⟨hc, C6_theorem aeaTriv volTriv dsWithStatus ⟨[[.val 3]], []⟩ ⟨[[.val 0]], []⟩
    ⟨[[.val 4]], []⟩ _ _ rfl rfl rfl rfl rfl (Or.inl hc)⟩

/-! CRS setting (`set_crs`). -/

/-- The messages `set_crs` writes to the process-wide logger: the info message
about removing CRS information and the warning about renaming geographic
coordinates to x/y. -/
inductive LogMsg where
  | infoRemovingCrs
  | warnRenaming
deriving DecidableEq, Repr

/-- What a `set_crs` call produces: the new dataset (the Python return value)
together with the messages it wrote to the process logger (modelled
explicitly, since logging is `set_crs`'s only side effect). -/
structure CrsResult where
  ds : Dataset
  logs : List LogMsg
deriving DecidableEq, Repr

/-- `Dataset.drop(name)` on the variable list. -/
def removeVarList (name : String) : List (String × Var) → List (String × Var)
  | [] => []
  | (k, v) :: t =>
    if k = name then removeVarList name t else (k, v) :: removeVarList name t

/-- `Dataset.drop(name)` / `drop_vars`. -/
def dropVar (ds : Dataset) (name : String) : Dataset :=
  ⟨removeVarList name ds.vars, ds.obsSize⟩

/-- `del attrs[name]` (no-op when absent, matching the guarded deletion in the
source's loop). -/
def removeAttrList (name : String) : List (String × String) → List (String × String)
  | [] => []
  | (k, v) :: t =>
    if k = name then removeAttrList name t else (k, v) :: removeAttrList name t

/-- A variable with one attribute removed. -/
def removeAttr (v : Var) (a : String) : Var :=
  ⟨v.data, removeAttrList a v.attrs⟩

/-- Apply a function to every variable of the dataset. -/
def mapVars (ds : Dataset) (f : Var → Var) : Dataset :=
  ⟨ds.vars.map (fun p => (p.1, f p.2)), ds.obsSize⟩

/-- `ds[name] = v`: replace the existing entry, or append a new one. -/
def setVarList (name : String) (v : Var) : List (String × Var) → List (String × Var)
  | [] => [(name, v)]
  | (k, w) :: t =>
    if k = name then (name, v) :: t else (k, w) :: setVarList name v t

/-- `ds[name] = v` on a dataset. -/
def setVar (ds : Dataset) (name : String) (v : Var) : Dataset :=
  ⟨setVarList name v ds.vars, ds.obsSize⟩

/-- `attrs[k] = val`: replace or append. -/
def setAttrList (k val : String) : List (String × String) → List (String × String)
  | [] => [(k, val)]
  | (a, b) :: t =>
    if a = k then (k, val) :: t else (a, b) :: setAttrList k val t

/-- A variable with one attribute set. -/
def setAttr (v : Var) (k val : String) : Var :=
  ⟨v.data, setAttrList k val v.attrs⟩

/-- The CRS-stripping steps of `set_crs(None)` (traj.py lines 252-258): drop
the grid-mapping variable when one is declared, then delete the
`grid_mapping` attribute from every variable. -/
def stripGm (ds : Dataset) : Dataset :=
  mapVars
    (match gridMappingVar ds with
      | some (k, _) => dropVar ds k
      | none => ds)
    (fun v => removeAttr v "grid_mapping")

/-- `Traj.set_crs` (traj.py lines 225-280).  With `crs = None` it logs the
info message, strips grid-mapping metadata (`stripGm`), and — when the
x-coordinate is named `lon`/`longitude` — logs the rename warning
unconditionally, copies the coordinate variables to `x`/`y` and drops the old
names.  With a concrete CRS it inserts a grid-mapping variable named by the
CRS's CF `grid_mapping_name` and points the coordinate variables'
`grid_mapping` attributes at it.  Coordinate values are never transformed:
the function only copies and renames; it works on a copy (`self.ds.copy()`,
which copies each variable's attribute dictionary), so the input dataset is
left unchanged (the embedding passes state explicitly, and every output below
is built from the copy). -/
def set_crs (ds : Dataset) (c : Option CRS) : Except PyErr CrsResult :=
  match c with
  | none =>
    match detect_tx_dim ds with
    | .error e => .error e
    | .ok (nx, _) =>
      if nx = "lon" ∨ nx = "longitude" then
        match detect_ty_dim ds with
        | .error e => .error e
        | .ok (ny, _) =>
          match getVar (stripGm ds) nx, getVar (stripGm ds) ny with
          | some vx, some vy =>
            .ok ⟨dropVar (dropVar (setVar (setVar (stripGm ds) "x" vx) "y" vy) nx) ny,
                 [.infoRemovingCrs, .warnRenaming]⟩
          | _, _ => .error .keyError
      else .ok ⟨stripGm ds, [.infoRemovingCrs]⟩
  | some c0 =>
    let ds1 := setVar ds c0.gmName ⟨[], c0.cf⟩
    match detect_tx_dim ds with
    | .error e => .error e
    | .ok (nx, _) =>
      match getVar ds1 nx with
      | none => .error .keyError
      | some vx =>
        let ds2 := setVar ds1 nx (setAttr vx "grid_mapping" c0.gmName)
        match detect_ty_dim ds with
        | .error e => .error e
        | .ok (ny, _) =>
          match getVar ds2 ny with
          | none => .error .keyError
          | some vy =>
            .ok ⟨setVar ds2 ny (setAttr vy "grid_mapping" c0.gmName), []⟩

/-! Lookup lemmas for the dataset editing primitives. -/

theorem lookupVar_setVarList_self (name : String) (v : Var) :
    ∀ l : List (String × Var), lookupVar name (setVarList name v l) = some v
  | [] => by simp [setVarList, lookupVar]
  | (k, w) :: t => by
    by_cases h : k = name
    · simp [setVarList, h, lookupVar]
    · simp [setVarList, h, lookupVar, lookupVar_setVarList_self name v t]

theorem lookupVar_setVarList_ne (m name : String) (v : Var) (hne : m ≠ name) :
    ∀ l : List (String × Var), lookupVar m (setVarList name v l) = lookupVar m l
  | [] => by simp [setVarList, lookupVar, Ne.symm hne]
  | (k, w) :: t => by
    by_cases h : k = name
    · subst h
      simp [setVarList, lookupVar, Ne.symm hne]
    · by_cases h2 : k = m
      · simp [setVarList, h, lookupVar, h2, hne]
      · simp [setVarList, h, lookupVar, h2, lookupVar_setVarList_ne m name v hne t]

theorem lookupVar_removeVarList_self (name : String) :
    ∀ l : List (String × Var), lookupVar name (removeVarList name l) = none
  | [] => by simp [removeVarList, lookupVar]
  | (k, w) :: t => by
    by_cases h : k = name
    · simp [removeVarList, h, lookupVar_removeVarList_self name t]
    · simp [removeVarList, h, lookupVar, lookupVar_removeVarList_self name t]

theorem lookupVar_removeVarList_ne (m name : String) (hne : m ≠ name) :
    ∀ l : List (String × Var), lookupVar m (removeVarList name l) = lookupVar m l
  | [] => by simp [removeVarList]
  | (k, w) :: t => by
    by_cases h : k = name
    · subst h
      simp [removeVarList, lookupVar, Ne.symm hne, lookupVar_removeVarList_ne m k hne t]
    · by_cases h2 : k = m
      · simp [removeVarList, h, lookupVar, h2, hne]
      · simp [removeVarList, h, lookupVar, h2, lookupVar_removeVarList_ne m name hne t]

theorem lookupVar_mapList (m : String) (f : Var → Var) :
    ∀ l : List (String × Var),
      lookupVar m (l.map (fun p => (p.1, f p.2))) = (lookupVar m l).map f
  | [] => rfl
  | (k, w) :: t => by
    by_cases h : k = m
    · simp [lookupVar, h]
    · simp [lookupVar, h, lookupVar_mapList m f t]

theorem getVar_setVar_self (ds : Dataset) (name : String) (v : Var) :
    getVar (setVar ds name v) name = some v :=
  lookupVar_setVarList_self name v ds.vars

theorem getVar_setVar_ne (ds : Dataset) (m name : String) (v : Var) (h : m ≠ name) :
    getVar (setVar ds name v) m = getVar ds m :=
  lookupVar_setVarList_ne m name v h ds.vars

theorem getVar_dropVar_self (ds : Dataset) (name : String) :
    getVar (dropVar ds name) name = none :=
  lookupVar_removeVarList_self name ds.vars

theorem getVar_dropVar_ne (ds : Dataset) (m name : String) (h : m ≠ name) :
    getVar (dropVar ds name) m = getVar ds m :=
  lookupVar_removeVarList_ne m name h ds.vars

theorem getVar_mapVars (ds : Dataset) (m : String) (f : Var → Var) :
    getVar (mapVars ds f) m = (getVar ds m).map f :=
  lookupVar_mapList m f ds.vars

/-- `detect_tx_dim` only answers with a name it probed, and that name does
resolve in the dataset to the returned variable. -/
theorem detect_tx_facts (ds : Dataset) (nx : String) (vx : Var)
    (h : detect_tx_dim ds = .ok (nx, vx)) :
    getVar ds nx = some vx ∧ (nx = "lon" ∨ nx = "longitude" ∨ nx = "x" ∨ nx = "X") := by
  rw [detect_tx_dim] at h
  cases h1 : getVar ds "lon" with
  | some v =>
    rw [h1] at h
    obtain ⟨h2, h3⟩ : "lon" = nx ∧ v = vx := by simpa using h
    subst h2; subst h3
    exact ⟨h1, Or.inl rfl⟩
  | none =>
    rw [h1] at h
    cases h2 : getVar ds "longitude" with
    | some v =>
      rw [h2] at h
      obtain ⟨h3, h4⟩ : "longitude" = nx ∧ v = vx := by simpa using h
      subst h3; subst h4
      exact ⟨h2, Or.inr (Or.inl rfl)⟩
    | none =>
      rw [h2] at h
      cases h3 : getVar ds "x" with
      | some v =>
        rw [h3] at h
        obtain ⟨h4, h5⟩ : "x" = nx ∧ v = vx := by simpa using h
        subst h4; subst h5
        exact ⟨h3, Or.inr (Or.inr (Or.inl rfl))⟩
      | none =>
        rw [h3] at h
        cases h4 : getVar ds "X" with
        | some v =>
          rw [h4] at h
          obtain ⟨h5, h6⟩ : "X" = nx ∧ v = vx := by simpa using h
          subst h5; subst h6
          exact ⟨h4, Or.inr (Or.inr (Or.inr rfl))⟩
        | none => rw [h4] at h; cases h

/-- Same facts for `detect_ty_dim`. -/
theorem detect_ty_facts (ds : Dataset) (ny : String) (vy : Var)
    (h : detect_ty_dim ds = .ok (ny, vy)) :
    getVar ds ny = some vy ∧ (ny = "lat" ∨ ny = "latitude" ∨ ny = "y" ∨ ny = "Y") := by
  rw [detect_ty_dim] at h
  cases h1 : getVar ds "lat" with
  | some v =>
    rw [h1] at h
    obtain ⟨h2, h3⟩ : "lat" = ny ∧ v = vy := by simpa using h
    subst h2; subst h3
    exact ⟨h1, Or.inl rfl⟩
  | none =>
    rw [h1] at h
    cases h2 : getVar ds "latitude" with
    | some v =>
      rw [h2] at h
      obtain ⟨h3, h4⟩ : "latitude" = ny ∧ v = vy := by simpa using h
      subst h3; subst h4
      exact ⟨h2, Or.inr (Or.inl rfl)⟩
    | none =>
      rw [h2] at h
      cases h3 : getVar ds "y" with
      | some v =>
        rw [h3] at h
        obtain ⟨h4, h5⟩ : "y" = ny ∧ v = vy := by simpa using h
        subst h4; subst h5
        exact ⟨h3, Or.inr (Or.inr (Or.inl rfl))⟩
      | none =>
        rw [h3] at h
        cases h4 : getVar ds "Y" with
        | some v =>
          rw [h4] at h
          obtain ⟨h5, h6⟩ : "Y" = ny ∧ v = vy := by simpa using h
          subst h5; subst h6
          exact ⟨h4, Or.inr (Or.inr (Or.inr rfl))⟩
        | none => rw [h4] at h; cases h

theorem lookupAttr_removeAttrList_self (name : String) :
    ∀ l : List (String × String), lookupAttr name (removeAttrList name l) = none
  | [] => by simp [removeAttrList, lookupAttr]
  | (k, w) :: t => by
    by_cases h : k = name
    · simp [removeAttrList, h, lookupAttr_removeAttrList_self name t]
    · simp [removeAttrList, h, lookupAttr, lookupAttr_removeAttrList_self name t]

/-- Looking a variable up after the CRS-stripping steps: when the name is not
the grid-mapping variable's, stripping only removes its `grid_mapping`
attribute. -/
theorem getVar_stripGm (ds : Dataset) (m : String)
    (h : ∀ k g, gridMappingVar ds = some (k, g) → k ≠ m) :
    getVar (stripGm ds) m =
      (getVar ds m).map (fun v => removeAttr v "grid_mapping") := by
  rw [stripGm, getVar_mapVars]
  rcases hgmv : gridMappingVar ds with _ | ⟨k, g⟩
  · rfl
  · simp only [hgmv]
    rw [getVar_dropVar_ne ds m k (Ne.symm (h k g hgmv))]

/-- The full rename branch of `set_crs(None)`: when the x-coordinate is named
`lon`/`longitude` (and the y-coordinate `lat`/`latitude`, and the grid-mapping
variable, if any, is not a coordinate), the call succeeds, logs the rename
warning, stores the untransformed coordinate data under `x`/`y` with the
`grid_mapping` attribute removed, and drops the old coordinate names. -/
theorem set_crs_none_rename_facts (ds : Dataset) (nx ny : String) (vx vy : Var)
    (htx : detect_tx_dim ds = .ok (nx, vx)) (hty : detect_ty_dim ds = .ok (ny, vy))
    (hlon : nx = "lon" ∨ nx = "longitude") (hlat : ny = "lat" ∨ ny = "latitude")
    (hgm : ∀ k g, gridMappingVar ds = some (k, g) → k ≠ nx ∧ k ≠ ny) :
    ∃ r, set_crs ds none = .ok r ∧ r.logs = [.infoRemovingCrs, .warnRenaming] ∧
      (∃ wx, getVar r.ds "x" = some wx ∧ wx.data = vx.data ∧
        lookupAttr "grid_mapping" wx.attrs = none) ∧
      (∃ wy, getVar r.ds "y" = some wy ∧ wy.data = vy.data ∧
        lookupAttr "grid_mapping" wy.attrs = none) ∧
      getVar r.ds nx = none ∧ getVar r.ds ny = none := by
  have hgx := (detect_tx_facts ds nx vx htx).1
  have hgy := (detect_ty_facts ds ny vy hty).1
  have hnxy : nx ≠ ny := by
    rcases hlon with h | h <;> rcases hlat with h2 | h2 <;>
      subst h <;> subst h2 <;> decide
  have hxny : ("x" : String) ≠ ny := by rcases hlat with h | h <;> subst h <;> decide
  have hxnx : ("x" : String) ≠ nx := by rcases hlon with h | h <;> subst h <;> decide
  have hyny : ("y" : String) ≠ ny := by rcases hlat with h | h <;> subst h <;> decide
  have hynx : ("y" : String) ≠ nx := by rcases hlon with h | h <;> subst h <;> decide
  have h1x : getVar (stripGm ds) nx = some (removeAttr vx "grid_mapping") := by
    rw [getVar_stripGm ds nx (fun k g hk => (hgm k g hk).1), hgx]; rfl
  have h1y : getVar (stripGm ds) ny = some (removeAttr vy "grid_mapping") := by
    rw [getVar_stripGm ds ny (fun k g hk => (hgm k g hk).2), hgy]; rfl
  have hset : set_crs ds none = .ok
      ⟨dropVar (dropVar (setVar (setVar (stripGm ds) "x" (removeAttr vx "grid_mapping"))
          "y" (removeAttr vy "grid_mapping")) nx) ny,
       [.infoRemovingCrs, .warnRenaming]⟩ := by
    simp only [set_crs, htx, hty, h1x, h1y]
    rw [if_pos hlon]
  refine ⟨_, hset, rfl, ⟨removeAttr vx "grid_mapping", ?_, rfl,
      lookupAttr_removeAttrList_self _ _⟩,
    ⟨removeAttr vy "grid_mapping", ?_, rfl, lookupAttr_removeAttrList_self _ _⟩, ?_, ?_⟩
  · rw [getVar_dropVar_ne _ _ _ hxny, getVar_dropVar_ne _ _ _ hxnx,
      getVar_setVar_ne _ _ _ _ (by decide), getVar_setVar_self]
  · rw [getVar_dropVar_ne _ _ _ hyny, getVar_dropVar_ne _ _ _ hynx, getVar_setVar_self]
  · rw [getVar_dropVar_ne _ _ _ hnxy, getVar_dropVar_self]
  · rw [getVar_dropVar_self]

/-- Claim C8, counterexample.  The claim says `set_crs(None)` signals a
warning when (and because) the rename would overwrite pre-existing `x`/`y`
fields, via a returned warning list.  On a dataset with `lon`/`lat` and no
`x`/`y` variables at all, the code still emits the rename warning — and does
so through the process-wide logger (the Python function returns only the
dataset; the log channel is modelled by the explicit `logs` component
here). -/
theorem C8_counterexample :
    getVar dsTwoObs "x" = none ∧ getVar dsTwoObs "y" = none ∧
    set_crs dsTwoObs none = .ok
      ⟨⟨[("x", ⟨[[.val 0, .val 1]], []⟩), ("y", ⟨[[.val 0, .val 1]], []⟩)], 2⟩,
       [.infoRemovingCrs, .warnRenaming]⟩ ∧
    LogMsg.warnRenaming ∈ ([.infoRemovingCrs, .warnRenaming] : List LogMsg) :=
  ⟨rfl, rfl, rfl, by decide⟩

/-- Claim C8, amended: `set_crs(None)` strips the grid-mapping metadata and
renames `lon`/`longitude`-named coordinate fields to `x`/`y` (values copied
unchanged, `grid_mapping` attributes removed, old names dropped); the rename
warning is emitted on every such rename, regardless of whether pre-existing
`x`/`y` fields are overwritten, and it goes to the process-wide logger (the
`logs` component below) — the function's Python return value is only the new
dataset, no warning list. -/
theorem C8_theorem (ds : Dataset) (nx ny : String) (vx vy : Var) (r : CrsResult)
    (htx : detect_tx_dim ds = .ok (nx, vx)) (hty : detect_ty_dim ds = .ok (ny, vy))
    (hlon : nx = "lon" ∨ nx = "longitude") (hlat : ny = "lat" ∨ ny = "latitude")
    (hgm : ∀ k g, gridMappingVar ds = some (k, g) → k ≠ nx ∧ k ≠ ny)
    (hr : set_crs ds none = .ok r) :
    LogMsg.warnRenaming ∈ r.logs ∧
    (∃ wx, getVar r.ds "x" = some wx ∧ wx.data = vx.data ∧
      lookupAttr "grid_mapping" wx.attrs = none) ∧
    (∃ wy, getVar r.ds "y" = some wy ∧ wy.data = vy.data ∧
      lookupAttr "grid_mapping" wy.attrs = none) ∧
    getVar r.ds nx = none ∧ getVar r.ds ny = none := by
  obtain ⟨r', hset, hlogs, hx, hy, hnx, hny2⟩ :=
    set_crs_none_rename_facts ds nx ny vx vy htx hty hlon hlat hgm
  rw [hset] at hr
  injection hr with h
  subst h
  exact ⟨by rw [hlogs]; decide, hx, hy, hnx, hny2⟩

/-- The dataset and logs produced by `set_crs(None)` on `dsTwoObs`. -/
def renameResult : CrsResult :=
  ⟨⟨[("x", ⟨[[.val 0, .val 1]], []⟩), ("y", ⟨[[.val 0, .val 1]], []⟩)], 2⟩,
   [.infoRemovingCrs, .warnRenaming]⟩

/-- Witness for `C8_theorem` on a concrete `lon`/`lat` dataset. -/
theorem C8_witness :
    set_crs dsTwoObs none = .ok renameResult ∧
    (LogMsg.warnRenaming ∈ renameResult.logs ∧
     (∃ wx, getVar renameResult.ds "x" = some wx ∧
        wx.data = [[FloatVal.val 0, FloatVal.val 1]] ∧
        lookupAttr "grid_mapping" wx.attrs = none) ∧
     (∃ wy, getVar renameResult.ds "y" = some wy ∧
        wy.data = [[FloatVal.val 0, FloatVal.val 1]] ∧
        lookupAttr "grid_mapping" wy.attrs = none) ∧
     getVar renameResult.ds "lon" = none ∧ getVar renameResult.ds "lat" = none) :=
  ⟨rfl, C8_theorem dsTwoObs "lon" "lat" ⟨[[.val 0, .val 1]], []⟩ ⟨[[.val 0, .val 1]], []⟩
    renameResult rfl rfl (Or.inl rfl) (Or.inl rfl)
    (fun k g h => by rw [show gridMappingVar dsTwoObs = none from rfl] at h; cases h)
    rfl⟩

/-- The data array stored under a name, disregarding attributes. -/
def dataOf (ds : Dataset) (name : String) : Option Arr2 :=
  (getVar ds name).map (fun v => v.data)

/-- Claim C9: `set_crs` returns a new dataset (the embedding passes state
explicitly and the result is built from the copy, so the input value is
untouched), and the numeric coordinate values in the returned dataset are the
input's values unchanged — no coordinate transformation is applied on any
branch: with `None` they are either renamed to `x`/`y` (when named
`lon`/`longitude`) or kept in place; with a concrete CRS they are kept under
their names with only the `grid_mapping` attribute changed. -/
theorem C9_theorem (ds : Dataset) (c : Option CRS) (nx ny : String) (vx vy : Var)
    (r : CrsResult)
    (htx : detect_tx_dim ds = .ok (nx, vx)) (hty : detect_ty_dim ds = .ok (ny, vy))
    (hgm : ∀ k g, gridMappingVar ds = some (k, g) → k ≠ nx ∧ k ≠ ny)
    (hc : ∀ c0, c = some c0 → c0.gmName ≠ nx ∧ c0.gmName ≠ ny)
    (hr : set_crs ds c = .ok r) :
    (c = none → (nx = "lon" ∨ nx = "longitude") → (ny = "lat" ∨ ny = "latitude") →
      dataOf r.ds "x" = some vx.data ∧ dataOf r.ds "y" = some vy.data) ∧
    (c = none → ¬(nx = "lon" ∨ nx = "longitude") →
      dataOf r.ds nx = some vx.data ∧ dataOf r.ds ny = some vy.data) ∧
    (∀ c0, c = some c0 →
      dataOf r.ds nx = some vx.data ∧ dataOf r.ds ny = some vy.data) := by
  have hgx := (detect_tx_facts ds nx vx htx).1
  have hgy := (detect_ty_facts ds ny vy hty).1
  have hnxy : nx ≠ ny := by
    rcases (detect_tx_facts ds nx vx htx).2 with h | h | h | h <;>
      rcases (detect_ty_facts ds ny vy hty).2 with h2 | h2 | h2 | h2 <;>
      subst h <;> subst h2 <;> decide
  refine ⟨?_, ?_, ?_⟩
  · intro hcn hlon hlat
    subst hcn
    obtain ⟨r', hset, hlogs, ⟨wx, hwx, hwxd, _⟩, ⟨wy, hwy, hwyd, _⟩, _, _⟩ :=
      set_crs_none_rename_facts ds nx ny vx vy htx hty hlon hlat hgm
    rw [hset] at hr
    injection hr with h
    subst h
    exact ⟨by simp [dataOf, hwx, hwxd], by simp [dataOf, hwy, hwyd]⟩
  · intro hcn hnotlon
    subst hcn
    have hset : set_crs ds none = .ok ⟨stripGm ds, [.infoRemovingCrs]⟩ := by
      simp only [set_crs, htx]
      rw [if_neg hnotlon]
    rw [hset] at hr
    injection hr with h
    subst h
    constructor
    · rw [dataOf, getVar_stripGm ds nx (fun k g hk => (hgm k g hk).1), hgx]; rfl
    · rw [dataOf, getVar_stripGm ds ny (fun k g hk => (hgm k g hk).2), hgy]; rfl
  · intro c0 hcs
    subst hcs
    obtain ⟨hgnx, hgny⟩ := hc c0 rfl
    have h1x : getVar (setVar ds c0.gmName ⟨[], c0.cf⟩) nx = some vx := by
      rw [getVar_setVar_ne _ _ _ _ (Ne.symm hgnx), hgx]
    have h2y : getVar (setVar (setVar ds c0.gmName ⟨[], c0.cf⟩) nx
        (setAttr vx "grid_mapping" c0.gmName)) ny = some vy := by
      rw [getVar_setVar_ne _ _ _ _ (Ne.symm hnxy),
        getVar_setVar_ne _ _ _ _ (Ne.symm hgny), hgy]
    have hset : set_crs ds (some c0) = .ok
        ⟨setVar (setVar (setVar ds c0.gmName ⟨[], c0.cf⟩) nx
            (setAttr vx "grid_mapping" c0.gmName)) ny
            (setAttr vy "grid_mapping" c0.gmName),
         []⟩ := by
      simp only [set_crs, htx, hty, h1x, h2y]
    rw [hset] at hr
    injection hr with h
    subst h
    constructor
    · rw [dataOf, getVar_setVar_ne _ _ _ _ hnxy, getVar_setVar_self]; rfl
    · rw [dataOf, getVar_setVar_self]; rfl

/-- Witness for `C9_theorem`: the rename branch on a concrete dataset keeps
the coordinate values byte-for-byte. -/
theorem C9_witness :
    set_crs dsTwoObs none = .ok renameResult ∧
    (dataOf renameResult.ds "x" = some [[FloatVal.val 0, FloatVal.val 1]] ∧
     dataOf renameResult.ds "y" = some [[FloatVal.val 0, FloatVal.val 1]]) :=
  ⟨rfl, (C9_theorem dsTwoObs none "lon" "lat" ⟨[[.val 0, .val 1]], []⟩
    ⟨[[.val 0, .val 1]], []⟩ renameResult rfl rfl
    (fun k g h => by rw [show gridMappingVar dsTwoObs = none from rfl] at h; cases h)
    (fun c0 h => nomatch h)
    rfl).1 rfl (Or.inl rfl) (Or.inl rfl)⟩

/-! `index_of_last`. -/

/-- Modelled from NumPy: after `np.ma.masked_invalid` masks the non-finite
entries of a row, `np.ma.notmasked_edges(a, axis=1)[1]` reports, for each row
with at least one unmasked entry, the largest unmasked index (`[1][1]` selects
the indices along the observation axis; fully-masked rows are omitted from the
report).  This function computes that largest finite index for one row. -/
def lastFiniteIdx : List FloatVal → Option Nat
  | [] => none
  | x :: t =>
    match lastFiniteIdx t with
    | some j => some (j + 1)
    | none => if x.isFinite then some 0 else none

/-- `Traj.index_of_last` (traj.py lines 382-391):
`np.ma.notmasked_edges(np.ma.masked_invalid(self.ds.lon.values), axis=1)[1][1]`. -/
def index_of_last (ds : Dataset) : Except PyErr (List Nat) :=
  match getVar ds "lon" with
  | none => .error .attributeError
  | some lonv => .ok (lonv.data.filterMap lastFiniteIdx)

/-- `lastFiniteIdx` returns exactly the largest finite index of a row, and
`none` exactly when the row has no finite entry. -/
theorem lastFiniteIdx_spec (r : List FloatVal) :
    (∀ j : Nat, lastFiniteIdx r = some j →
      (∃ x : FloatVal, r[j]? = some x ∧ x.isFinite = true) ∧
      ∀ (k : Nat) (x : FloatVal), r[k]? = some x → x.isFinite = true → k ≤ j) ∧
    (lastFiniteIdx r = none →
      ∀ (k : Nat) (x : FloatVal), r[k]? = some x → x.isFinite = false) := by
  induction r with
  | nil =>
    refine ⟨fun j hj => by simp [lastFiniteIdx] at hj, fun _ k x hk => by simp at hk⟩
  | cons a t ih =>
    cases h : lastFiniteIdx t with
    | some j =>
      refine ⟨fun j' hj' => ?_, fun hn => ?_⟩
      · rw [lastFiniteIdx, h] at hj'
        obtain rfl : j + 1 = j' := by simpa using hj'
        obtain ⟨⟨x, hx, hxf⟩, hbd⟩ := (ih.1) j h
        refine ⟨⟨x, by simpa using hx, hxf⟩, ?_⟩
        intro k y hk hkf
        cases k with
        | zero => omega
        | succ k' =>
          have := hbd k' y (by simpa using hk) hkf
          omega
      · rw [lastFiniteIdx, h] at hn
        cases hn
    | none =>
      by_cases hf : a.isFinite
      · refine ⟨fun j' hj' => ?_, fun hn => ?_⟩
        · rw [lastFiniteIdx, h, if_pos hf] at hj'
          obtain rfl : 0 = j' := by simpa using hj'
          refine ⟨⟨a, by simp, hf⟩, ?_⟩
          intro k y hk hkf
          cases k with
          | zero => omega
          | succ k' =>
            have := ih.2 h k' y (by simpa using hk)
            rw [this] at hkf
            cases hkf
        · rw [lastFiniteIdx, h, if_pos hf] at hn
          cases hn
      · refine ⟨fun j' hj' => ?_, fun _ k y hk => ?_⟩
        · rw [lastFiniteIdx, h, if_neg hf] at hj'
          cases hj'
        · cases k with
          | zero =>
            obtain rfl : a = y := by simpa using hk
            simpa using hf
          | succ k' => exact ih.2 h k' y (by simpa using hk)

/-- When a function answers `some` on every element, `filterMap` is a
positionwise map. -/
theorem filterMap_all_some {α β : Type} (f : α → Option β) :
    ∀ l : List α, (∀ a ∈ l, (f a).isSome) →
      (l.filterMap f).length = l.length ∧
      ∀ (i : Nat) (a : α), l[i]? = some a → (l.filterMap f)[i]? = f a := by
  intro l
  induction l with
  | nil => exact fun _ => ⟨rfl, fun i a ha => by simp at ha⟩
  | cons a t ih =>
    intro h
    obtain ⟨b, hb⟩ := Option.isSome_iff_exists.mp (h a (List.mem_cons_self a t))
    obtain ⟨ih1, ih2⟩ := ih (fun a' ha' => h a' (List.mem_cons_of_mem _ ha'))
    rw [List.filterMap_cons, hb]
    refine ⟨by simp [ih1], ?_⟩
    intro i a' ha'
    cases i with
    | zero =>
      obtain rfl : a = a' := by simpa using ha'
      simpa using hb.symm
    | succ k =>
      have := ih2 k a' (by simpa using ha')
      simpa using this

/-- Claim C10: when every trajectory row of the 2D `lon` variable has at least
one finite value, `index_of_last` returns one index per trajectory, and that
index is finite-valued in `lon` and is the largest such observation index of
its row. -/
theorem C10_theorem (ds : Dataset) (lonv : Var)
    (hlon : getVar ds "lon" = some lonv)
    (hfin : ∀ r ∈ lonv.data, ∃ (j : Nat) (x : FloatVal),
      r[j]? = some x ∧ x.isFinite = true) :
    ∃ l : List Nat, index_of_last ds = .ok l ∧ l.length = lonv.data.length ∧
      ∀ (i : Nat) (r : List FloatVal), lonv.data[i]? = some r →
        ∃ j : Nat, l[i]? = some j ∧ (∃ x : FloatVal, r[j]? = some x ∧ x.isFinite = true) ∧
          ∀ (k : Nat) (x : FloatVal), r[k]? = some x → x.isFinite = true → k ≤ j := by
  have hsome : ∀ r ∈ lonv.data, (lastFiniteIdx r).isSome := by
    intro r hr
    obtain ⟨j, x, hj, hx⟩ := hfin r hr
    cases hidx : lastFiniteIdx r with
    | some _ => rfl
    | none =>
      have := (lastFiniteIdx_spec r).2 hidx j x hj
      rw [this] at hx
      cases hx
  obtain ⟨hlen, hpos⟩ := filterMap_all_some lastFiniteIdx lonv.data hsome
  refine ⟨lonv.data.filterMap lastFiniteIdx, by rw [index_of_last, hlon], hlen, ?_⟩
  intro i r hir
  have hmem : r ∈ lonv.data := List.getElem?_mem hir
  obtain ⟨j, hj⟩ := Option.isSome_iff_exists.mp (hsome r hmem)
  refine ⟨j, ?_, ((lastFiniteIdx_spec r).1 j hj).1, ((lastFiniteIdx_spec r).1 j hj).2⟩
  rw [hpos i r hir, hj]

/-- A dataset whose single trajectory has its last finite longitude at
observation index 2. -/
def dsLastIdx : Dataset :=
  ⟨[("lon", ⟨[[.val 1, .nan, .val 2, .nan]], []⟩)], 4⟩

/-- Witness for `C10_theorem` on a concrete ragged row. -/
theorem C10_witness :
    index_of_last dsLastIdx = .ok [2] ∧
    (∃ l : List Nat, index_of_last dsLastIdx = .ok l ∧
      l.length = ([[FloatVal.val 1, .nan, .val 2, .nan]] : Arr2).length ∧
      ∀ (i : Nat) (r : List FloatVal),
        ([[FloatVal.val 1, .nan, .val 2, .nan]] : Arr2)[i]? = some r →
        ∃ j : Nat, l[i]? = some j ∧ (∃ x : FloatVal, r[j]? = some x ∧ x.isFinite = true) ∧
          ∀ (k : Nat) (x : FloatVal), r[k]? = some x → x.isFinite = true → k ≤ j) :=
  ⟨rfl, C10_theorem dsLastIdx ⟨[[.val 1, .nan, .val 2, .nan]], []⟩ rfl
    (fun r hr => by
      obtain rfl : r = [FloatVal.val 1, .nan, .val 2, .nan] := by simpa using hr
      exact ⟨2, .val 2, rfl, rfl⟩)⟩

/-! Velocity components. -/

/-- The elementwise operation of `Traj.velocity_components` (traj.py lines
552-568) on the east slot: `u = speed * np.cos(azimuth)`, with `azimuth` the
forward azimuth from `azimuth_to_next` — pyproj compass degrees — fed to the
radian cosine unconverted. -/
noncomputable def velocity_component_u (speed azimuth : ℝ) : ℝ :=
  speed * Real.cos azimuth

/-- The elementwise operation of `Traj.velocity_components` on the north
slot: `v = speed * np.sin(azimuth)`. -/
noncomputable def velocity_component_v (speed azimuth : ℝ) : ℝ :=
  speed * Real.sin azimuth

/-- The claim's elementwise formula for `u`: the compass azimuth (degrees,
0° = north) is first converted to the mathematically standard bearing
convention (0 = east-axis component, radians), and only then is the cosine
applied. -/
noncomputable def velocity_component_u_claimed (speed azimuth_deg : ℝ) : ℝ :=
  speed * Real.cos ((90 - azimuth_deg) * (Real.pi / 180))

/-- Claim C1: `velocity_components` is claimed (and its own docstring says) to
return east/north velocity components, which requires converting the compass
azimuth in degrees to a standard bearing before the trigonometric functions.
The code applies `np.cos`/`np.sin` directly to the azimuth in degrees.  At a
due-east step (forward azimuth 90°, speed 1 m/s) the claimed east component is
`cos 0 = 1`, while the code computes `cos 90` — ninety *radians* — which is
not even positive. -/
theorem C1_theorem :
    velocity_component_u 1 90 ≠ velocity_component_u_claimed 1 90 := by
  intro h
  rw [velocity_component_u, velocity_component_u_claimed,
    show ((90 : ℝ) - 90) * (Real.pi / 180) = 0 by ring,
    Real.cos_zero, one_mul, mul_one] at h
  have hcos : Real.cos 90 ≤ 0 := by
    have h14 : Real.cos ((90 : ℝ) - (14 : ℤ) * (2 * Real.pi)) ≤ 0 := by
      apply Real.cos_nonpos_of_pi_div_two_le_of_le
      · have hlt := Real.pi_lt_d2
        push_cast
        linarith
      · have hgt := Real.pi_gt_d6
        push_cast
        linarith
    rwa [Real.cos_sub_int_mul_two_pi] at h14
  linarith

end Trajan
